import Mathlib

/-!
Verification of the lfs-utils core (src/lfsutils/lib.py) against its
natural-language specification.  The Python code is shallowly embedded:
pure helpers become Lean functions, external tool invocations become
explicit environment records holding the outcome of each call, and
Python exceptions become an explicit `PyExc` sum carried in `Except`.
All definitions are translated from the source file `lib.py`; the one
exception is the ClusterShell range-set expansion, an external library
dependency that is modelled from the specification of its boundary.
-/

/-- Python exception taxonomy used by lib.py: TypeError and ValueError
(uncaught by migrate_file), LfsUtilsError, subprocess.CalledProcessError
(with its optional captured stderr text), dict KeyError, and
ClusterShell RangeSetParseError. -/
inductive PyExc where
  | typeError (msg : String)
  | valueError (msg : String)
  | lfsUtilsError (msg : String)
  | calledProcessError (stderr : Option String)
  | keyError (key : Nat)
  | rangeSetParseError (msg : String)
deriving Repr, DecidableEq

/-- Abstraction of datetime.timedelta: only its string rendering is ever
observed by lib.py (in MigrateResult formatting), so the embedding keeps
just that rendering. -/
structure Timedelta where
  fmt : String
deriving Repr, DecidableEq

/-- conv_obj from lib.py, at the int-or-None uses occurring in
MigrateResult: None becomes the empty string, an int becomes str(int). -/
def conv_obj (arg : Option Int) : String :=
  match arg with
  | none => ""
  | some i => toString i

/-- MIN_OST_INDEX constant of class LfsUtils. -/
def MIN_OST_INDEX : Int := 0

/-- MAX_OST_INDEX constant of class LfsUtils. -/
def MAX_OST_INDEX : Int := 65535

/-- Value of a single hexadecimal digit character as accepted by Python
int(s, 16): decimal digits, lowercase a-f, uppercase A-F. -/
def hexVal (c : Char) : Nat :=
  if 48 ≤ c.toNat ∧ c.toNat ≤ 57 then c.toNat - 48
  else if 97 ≤ c.toNat ∧ c.toNat ≤ 102 then c.toNat - 87
  else if 65 ≤ c.toNat ∧ c.toNat ≤ 70 then c.toNat - 55
  else 0

/-- Character class of the regex [0-9a-fA-F] (pattern _REGEX_OST_HEX and
the hex groups of _REGEX_STR_OST_CONN_UUID). -/
def isHexDigitChar (c : Char) : Bool :=
  (48 ≤ c.toNat && c.toNat ≤ 57) || (97 ≤ c.toNat && c.toNat ≤ 102)
    || (65 ≤ c.toNat && c.toNat ≤ 70)

/-- One step of the base-16 accumulation performed by Python int(s, 16). -/
def hexStep (acc : Nat) (c : Char) : Nat := acc * 16 + hexVal c

/-- Value of a hex-digit string, as computed by Python int(s, 16) on a
valid input. -/
def hexListVal (l : List Char) : Nat := l.foldl hexStep 0

/-- Python int(s, 16) on a string of hexadecimal digits, used by
_replace_regex_match_hex_to_dec in lib.py. -/
def int_base16 (s : String) : Nat := hexListVal s.data

/-- Hexadecimal digit character produced by Python hex(): 0-9 then
lowercase a-f. -/
def hexDigitChar (n : Nat) : Char :=
  if n < 10 then Char.ofNat (48 + n) else Char.ofNat (87 + n)

/-- Fuel-indexed digit expansion behind hex(n): most significant digit
first, lowercase, no leading zeros (hex(0) gives the single digit 0).
The fuel argument only makes the recursion structural; any fuel above
the argument yields the digit string of n. -/
def natToHexCharsFuel : Nat → Nat → List Char
  | 0, _ => []
  | fuel + 1, n =>
    if n < 16 then [hexDigitChar n]
    else natToHexCharsFuel fuel (n / 16) ++ [hexDigitChar (n % 16)]

/-- Digit characters of Python hex(n) with the 0x prefix removed, i.e.
hex(ost).split('x')[-1] of lib.py for a nonnegative argument. -/
def natToHexChars (n : Nat) : List Char := natToHexCharsFuel (n + 1) n

/-- Python str.zfill(w) on a digit string: left-pad with the digit 0 up
to width w, leaving longer strings unchanged. -/
def zfill (w : Nat) (l : List Char) : List Char :=
  List.replicate (w - l.length) '0' ++ l

/-- to_ost_hex from lib.py: reject an index outside
[MIN_OST_INDEX, MAX_OST_INDEX] with LfsUtilsError, otherwise return
hex(ost).split('x')[-1].zfill(4). -/
def to_ost_hex (ost : Int) : Except PyExc String :=
  if ost < MIN_OST_INDEX ∨ ost > MAX_OST_INDEX then
    .error (.lfsUtilsError ("OST index " ++ toString ost ++
      " invalid. Must be in range between 0 and 65535."))
  else
    .ok (String.mk (zfill 4 (natToHexChars ost.toNat)))

/-- re.sub with pattern ([0-9a-fA-F]{4}) and replacement
_replace_regex_match_hex_to_dec, as performed by
create_rangeset_from_hex: scan left to right, replace each
non-overlapping run of exactly four hex digits by its decimal value,
and continue after the match; replacement text is not rescanned. -/
def hexSub : List Char → List Char
  | a :: b :: c :: d :: rest =>
    if isHexDigitChar a && isHexDigitChar b && isHexDigitChar c && isHexDigitChar d then
      (Nat.repr (hexListVal [a, b, c, d])).data ++ hexSub rest
    else
      a :: hexSub (b :: c :: d :: rest)
  | l => l

/-- Split a character list at each occurrence of the separator, like
Python str.split(sep) (an empty input yields one empty field). -/
def splitOnCharAux (sep : Char) : List Char → List Char → List (List Char)
  | [], acc => [acc.reverse]
  | c :: rest, acc =>
    if c = sep then acc.reverse :: splitOnCharAux sep rest []
    else splitOnCharAux sep rest (c :: acc)

/-- Python str.split(sep) on a character list. -/
def splitOnChar (sep : Char) (l : List Char) : List (List Char) :=
  splitOnCharAux sep l []

/-- Whitespace characters stripped by Python int() around a numeral. -/
def isSpaceChar (c : Char) : Bool :=
  c = ' ' || c = '\t' || c = '\n' || c = '\r'

/-- Strip leading and trailing whitespace, like Python str.strip(). -/
def trimChars (l : List Char) : List Char :=
  ((l.dropWhile isSpaceChar).reverse.dropWhile isSpaceChar).reverse

/-- Value of a decimal digit string. -/
def decVal (l : List Char) : Nat := l.foldl (fun a c => a * 10 + (c.toNat - 48)) 0

/-- Python int() on a decimal token: surrounding whitespace tolerated,
otherwise only digits; anything else is a parse failure. -/
def parseDecNat (l : List Char) : Option Nat :=
  let t := trimChars l
  if t ≠ [] ∧ t.all Char.isDigit then some (decVal t) else none

/-- Modelled from the spec: one token of a ClusterShell range-set
specification (external library, not part of this repository) is a
single decimal value or an inclusive lo-hi interval; a malformed or
reversed token fails. -/
def parseRangeToken (t : List Char) : Option (List Nat) :=
  match splitOnChar '-' t with
  | [single] => (parseDecNat single).map (fun x => [x])
  | [lo, hi] =>
    match parseDecNat lo, parseDecNat hi with
    | some l, some h => if l ≤ h then some (List.range' l (h - l + 1)) else none
    | _, _ => none
  | _ => none

/-- Parse every comma-separated token, failing the whole expansion when
any token is malformed (no partial results). -/
def allTokens : List (List Char) → Option (List (List Nat))
  | [] => some []
  | t :: ts =>
    match parseRangeToken t, allTokens ts with
    | some xs, some rest => some (xs :: rest)
    | _, _ => none

/-- Insert into an ascending duplicate-free list, keeping it so. -/
def insertSorted (x : Nat) : List Nat → List Nat
  | [] => [x]
  | y :: ys =>
    if x < y then x :: y :: ys
    else if x = y then y :: ys
    else y :: insertSorted x ys

/-- Deduplicated ascending arrangement of a list of indices. -/
def sortedDedup (l : List Nat) : List Nat :=
  l.foldl (fun acc x => insertSorted x acc) []

/-- Modelled from the spec: ClusterShell.RangeSet.RangeSet parsing
(external library, not part of this repository) - a comma-separated
list of single values or lo-hi inclusive intervals whose expansion is
the deduplicated ascending set of all covered integers; a malformed
token fails the whole expansion with RangeSetParseError. -/
def rangeSetParse (s : String) : Except PyExc (List Nat) :=
  match allTokens (splitOnChar ',' s.data) with
  | none => .error (.rangeSetParseError s)
  | some lists => .ok (sortedDedup lists.flatten)

/-- create_rangeset_from_hex from lib.py: rewrite every 4-hex-digit
token of the argument to its decimal value, then hand the rewritten
string to the RangeSet parser. -/
def create_rangeset_from_hex (hex_def : String) : Except PyExc (List Nat) :=
  rangeSetParse (String.mk (hexSub hex_def.data))

/-- MigrateState enumeration of lib.py. -/
inductive MigrateState where
  | DISPLACED
  | IGNORED
  | SKIPPED
  | SUCCESS
  | FAILED
deriving Repr, DecidableEq

/-- StripeInfo of lib.py: stripe count and current primary OST index of
one file, as parsed from the lfs getstripe YAML output. -/
structure StripeInfo where
  filename : String
  count : Int
  index : Int
deriving Repr, DecidableEq

/-- MigrateResult.__init__ of lib.py.  The constructor validates its
arguments and renders the result string; a validation failure raises
LfsUtilsError.  The state argument is optional because the Python
caller may pass None (which falls through every state comparison into
the final invalid-state branch).  Field order and the per-state
formats follow the source exactly. -/
def MigrateResult_init (state : Option MigrateState) (filename : String)
    (time_elapsed : Option Timedelta) (source_idx target_idx : Option Int)
    (error_msg : Option String) : Except PyExc String :=
  if filename = "" then
    .error (.lfsUtilsError "Filename must be set and type of str")
  else
    match time_elapsed with
    | none => .error (.lfsUtilsError "Time elapsed must be type of datetime.timedelta")
    | some td =>
      match state with
      | some .DISPLACED =>
        .ok ("DISPLACED|" ++ filename ++ "|" ++ td.fmt ++ "|" ++
          conv_obj source_idx ++ "|" ++ conv_obj target_idx)
      | some .FAILED =>
        match error_msg with
        | none => .error (.lfsUtilsError "State FAILED requires error_msg to be set.")
        | some m =>
          if m = "" then .error (.lfsUtilsError "State FAILED requires error_msg to be set.")
          else
            .ok ("FAILED|" ++ filename ++ "|" ++ td.fmt ++ "|" ++
              conv_obj source_idx ++ "|" ++ conv_obj target_idx ++ "|" ++ m)
      | some .IGNORED => .ok ("IGNORED|" ++ filename)
      | some .SKIPPED => .ok ("SKIPPED|" ++ filename)
      | some .SUCCESS =>
        .ok ("SUCCESS|" ++ filename ++ "|" ++ td.fmt ++ "|" ++
          conv_obj source_idx ++ "|" ++ conv_obj target_idx)
      | none => .error (.lfsUtilsError "Invalid state None")

/-- Outcomes of the external calls a single migrate_file invocation can
make, in program order: the pre-migration stripe_info query, the
lfs migrate subprocess, the post-migration stripe_info query, plus the
elapsed wall time measured around the attempt.  A CalledProcessError
value carries the captured stderr text (None when none was captured). -/
structure MigrateEnv where
  preStripe : Except PyExc StripeInfo
  migrateRun : Except PyExc Unit
  postStripe : Except PyExc StripeInfo
  elapsed : Timedelta

/-- Argument vector built for the lfs migrate subprocess by
migrate_file, in source order: the binary, the migrate verb,
--non-direct unless direct_io, --block or --non-block, -i with the
target index when given, -c with the stripe count when positive, and
the filename. -/
def build_args (lfs : String) (direct_io block : Bool) (target_idx : Option Int)
    (count : Int) (filename : String) : List String :=
  let a1 := [lfs, "migrate"]
  let a2 := if direct_io = false then a1 ++ ["--non-direct"] else a1
  let a3 := if block = true then a2 ++ ["--block"] else a2 ++ ["--non-block"]
  let a4 := match target_idx with
            | some t => a3 ++ ["-i", toString t]
            | none => a3
  let a5 := if 0 < count then a4 ++ ["-c", toString count] else a4
  a5 ++ [filename]

/-- Range validation performed inside migrate_file when target_idx is
given (lib.py lines 360-366), reproduced verbatim including the slip
that the upper-bound comparison reads source_idx while its message
names target_idx; comparing a Python None with an int would raise a
TypeError, which the embedding records likewise.  A failure is a
ValueError, which migrate_file does not catch. -/
def rangeCheck (source_idx target_idx : Option Int) : Option PyExc :=
  match target_idx with
  | none => none
  | some t =>
    if t < MIN_OST_INDEX then
      some (.valueError "target_idx is less than LfsUtils.MIN_OST_INDEX (0)")
    else
      match source_idx with
      | none => some (.typeError "unsupported comparison of NoneType and int")
      | some s =>
        if s > MAX_OST_INDEX then
          some (.valueError "target_idx is greater than LfsUtils.MAX_OST_INDEX (65535)")
        else none

/-- Result of the try block of migrate_file: either a normal completion
carrying the decided state and the pre/post index locals, or an
exception raised inside the block together with the values those locals
had at that moment. -/
inductive BodyOut where
  | normal (state : MigrateState) (pre post : Option Int)
  | exc (e : PyExc) (pre post : Option Int)
deriving Repr, DecidableEq

/-- Try-block outcome plus the observable side effects: the argument
vector of the lfs migrate subprocess when it was invoked, and whether
the post-migration stripe query was reached. -/
structure BodyResult where
  out : BodyOut
  relocArgs : Option (List String)
  postQueried : Bool
deriving Repr, DecidableEq

/-- Try block of migrate_file (lib.py lines 330-389): pre stripe query,
decision ladder (skip rule, source-index rule as written - a plain
inequality against the optional source_idx - target-index rule), range
validation, argument building, relocation subprocess, post stripe
query, and SUCCESS/DISPLACED classification. -/
def migrate_body (lfs : String) (env : MigrateEnv) (filename : String)
    (source_idx target_idx : Option Int) (direct_io block skip : Bool) : BodyResult :=
  match env.preStripe with
  | .error e => ⟨.exc e none none, none, false⟩
  | .ok pre =>
    if skip = true ∧ 1 < pre.count then
      ⟨.normal .SKIPPED (some pre.index) none, none, false⟩
    else if source_idx ≠ some pre.index then
      ⟨.normal .IGNORED (some pre.index) none, none, false⟩
    else if target_idx = some pre.index then
      ⟨.normal .IGNORED (some pre.index) none, none, false⟩
    else
      match rangeCheck source_idx target_idx with
      | some e => ⟨.exc e (some pre.index) none, none, false⟩
      | none =>
        let args := build_args lfs direct_io block target_idx pre.count filename
        match env.migrateRun with
        | .error e => ⟨.exc e (some pre.index) target_idx, some args, false⟩
        | .ok _ =>
          match env.postStripe with
          | .error e => ⟨.exc e (some pre.index) target_idx, some args, true⟩
          | .ok postInfo =>
            match target_idx with
            | some t =>
              if t ≠ postInfo.index then
                ⟨.normal .DISPLACED (some pre.index) (some postInfo.index), some args, true⟩
              else
                ⟨.normal .SUCCESS (some pre.index) (some postInfo.index), some args, true⟩
            | none =>
              ⟨.normal .SUCCESS (some pre.index) (some postInfo.index), some args, true⟩

/-- Full observable outcome of one migrate_file call: the returned
MigrateResult string, or the exception that escaped; the lfs migrate
argument vector when the relocation subprocess was invoked; and whether
the post-migration stripe query was reached. -/
structure MigrateCallResult where
  result : Except PyExc String
  relocArgs : Option (List String)
  postQueried : Bool
deriving Repr

/-- migrate_file of lib.py.  The try block runs migrate_body; a
CalledProcessError sets error_msg to the stderr text only when that
text is truthy (non-empty), an LfsUtilsError sets error_msg to its
message, both set the state to FAILED; any other exception propagates.
The MigrateResult constructor then runs outside the try block, so an
error it raises also propagates. -/
def migrate_file (lfs : String) (env : MigrateEnv) (filename : String)
    (source_idx target_idx : Option Int) (direct_io block skip : Bool) :
    MigrateCallResult :=
  let b := migrate_body lfs env filename source_idx target_idx direct_io block skip
  let res : Except PyExc String :=
    match b.out with
    | .normal st pre post =>
      MigrateResult_init (some st) filename (some env.elapsed) pre post none
    | .exc e pre post =>
      match e with
      | .calledProcessError stderr =>
        let em : Option String :=
          match stderr with
          | some s => if s = "" then none else some s
          | none => none
        MigrateResult_init (some .FAILED) filename (some env.elapsed) pre post em
      | .lfsUtilsError m =>
        MigrateResult_init (some .FAILED) filename (some env.elapsed) pre post (some m)
      | e2 => .error e2
  ⟨res, b.relocArgs, b.postQueried⟩

/-- Address characters of the regex group capturing the connection
address: decimal digits and dots. -/
def isAddrChar (c : Char) : Bool := c.isDigit || c = '.'

/-- Drop an expected literal character sequence from the front of a
text, failing when the text does not start with it. -/
def dropPrefixChars : List Char → List Char → Option (List Char)
  | [], l => some l
  | _ :: _, [] => none
  | p :: ps, c :: cs => if c = p then dropPrefixChars ps cs else none

/-- Drop exactly n hexadecimal digit characters from the front of a
text, failing when fewer are present. -/
def dropHexN : Nat → List Char → Option (List Char)
  | 0, l => some l
  | _ + 1, [] => none
  | n + 1, c :: rest => if isHexDigitChar c then dropHexN n rest else none

/-- Fixed part of the pattern _REGEX_STR_OST_CONN_UUID starting at the
-OST literal: four captured hex digits, the -osc- literal, sixteen hex
digits, the .ost_conn_uuid= literal, then the captured nonempty run of
digits and dots terminated by an at sign.  On success it returns the
two captured groups (hex index digits and address text). -/
def matchTailAt (l : List Char) : Option (List Char × String) :=
  match dropPrefixChars ("-OST".data) l with
  | none => none
  | some r1 =>
    match r1 with
    | a :: b :: c :: d :: r2 =>
      if [a, b, c, d].all isHexDigitChar then
        match dropPrefixChars ("-osc-".data) r2 with
        | none => none
        | some r3 =>
          match dropHexN 16 r3 with
          | none => none
          | some r4 =>
            match dropPrefixChars (".ost_conn_uuid=".data) r4 with
            | none => none
            | some r5 =>
              if r5.takeWhile isAddrChar ≠ [] ∧ (r5.dropWhile isAddrChar).head? = some '@' then
                some ([a, b, c, d], String.mk (r5.takeWhile isAddrChar))
              else none
      else none
    | _ => none

/-- Last position of the text where the fixed tail pattern matches,
reflecting the greedy dot-star between the osc. literal and the -OST
literal in _REGEX_STR_OST_CONN_UUID. -/
def findTail : List Char → Option (List Char × String)
  | [] => none
  | c :: rest =>
    match findTail rest with
    | some r => some r
    | none => matchTailAt (c :: rest)

/-- re.search with pattern _REGEX_STR_OST_CONN_UUID on one line: find
the leftmost position carrying the osc. literal after which the tail
pattern completes, taking the greedy (last) completion. -/
def searchConnUuid : List Char → Option (List Char × String)
  | [] => none
  | c :: rest =>
    match dropPrefixChars ("osc.".data) (c :: rest) with
    | some after =>
      match findTail after with
      | some r => some r
      | none => searchConnUuid rest
    | none => searchConnUuid rest

/-- Python dict assignment on an association list: overwrite the value
of an existing key in place, otherwise append the new binding. -/
def dictInsert (m : List (Nat × String)) (k : Nat) (v : String) : List (Nat × String) :=
  match m with
  | [] => [(k, v)]
  | (k0, v0) :: rest => if k0 = k then (k, v) :: rest else (k0, v0) :: dictInsert rest k v

/-- Line loop of ost_conn_uuid_map: blank lines (after stripping) are
skipped; a non-blank line that the connection-identifier pattern does
not match aborts the whole call with LfsUtilsError; a matching line
inserts int(group1, 16) mapped to the captured address. -/
def connUuidLines (fs_name : String) :
    List (List Char) → List (Nat × String) → Except PyExc (List (Nat × String))
  | [], acc => .ok acc
  | line :: rest, acc =>
    if trimChars line = [] then connUuidLines fs_name rest acc
    else
      match searchConnUuid line with
      | none =>
        .error (.lfsUtilsError ("No match for ost_conn_uuid on filesystem " ++ fs_name))
      | some (h4, addr) =>
        connUuidLines fs_name rest (dictInsert acc (hexListVal h4) addr)

/-- ost_conn_uuid_map of lib.py: reject an empty filesystem name,
propagate a failed lctl get_param invocation, parse every line of its
output, and reject an empty resulting map. -/
def ost_conn_uuid_map (fs_name : String) (output : Except PyExc String) :
    Except PyExc (List (Nat × String)) :=
  if fs_name = "" then .error (.lfsUtilsError "Lustre filesystem name is not set")
  else
    match output with
    | .error e => .error e
    | .ok out =>
      match connUuidLines fs_name (splitOnChar '\n' out.data) [] with
      | .error e => .error e
      | .ok m =>
        if m = [] then
          .error (.lfsUtilsError
            ("Lustre ost_conn_uuid_dict is empty for filesystem " ++ fs_name))
        else .ok m

/-- External calls made by lookup_oss_by_ost_rangeset, in order: one
bulk connection-map fetch, then one hostname resolution per index. -/
inductive TopoEvent where
  | connMapFetch
  | hostnameResolve (addr : String)
deriving Repr, DecidableEq

/-- Environment of the bulk topology lookup: the outcome of the single
ost_conn_uuid_map call and the address-to-hostname resolution, which
the claim assumes to behave as a function. -/
structure TopoEnv where
  connMapRun : Except PyExc (List (Nat × String))
  resolve : String → String

/-- Python dict lookup on an association list. -/
def dictGet : List (Nat × String) → Nat → Option String
  | [], _ => none
  | (k, v) :: rest, key => if k = key then some v else dictGet rest key

/-- Grouping step of lookup_oss_by_ost_rangeset: append the index to
the list of its hostname, creating the hostname entry at the end of the
dict (insertion order) when absent. -/
def addToGroup : List (String × List Nat) → String → Nat → List (String × List Nat)
  | [], oss, ost => [(oss, [ost])]
  | (k, xs) :: rest, oss, ost =>
    if k = oss then (k, xs ++ [ost]) :: rest
    else (k, xs) :: addToGroup rest oss ost

/-- All indices stored in a grouping, in dict-and-list order. -/
def groupVals (g : List (String × List Nat)) : List Nat :=
  (g.map Prod.snd).flatten

/-- Per-index loop of lookup_oss_by_ost_rangeset: look the index up in
the fetched connection map (a missing key raises KeyError), resolve the
address to a hostname (recording the resolution event), and group.
Returns the grouping together with the emitted events. -/
def lookupLoop (resolve : String → String) (connMap : List (Nat × String)) :
    List Nat → List (String × List Nat) →
    Except PyExc (List (String × List Nat)) × List TopoEvent
  | [], acc => (.ok acc, [])
  | ost :: rest, acc =>
    match dictGet connMap ost with
    | none => (.error (.keyError ost), [])
    | some addr =>
      let r := lookupLoop resolve connMap rest (addToGroup acc (resolve addr) ost)
      (r.1, .hostnameResolve addr :: r.2)

/-- lookup_oss_by_ost_rangeset of lib.py: fetch the bulk connection map
once, then iterate over the range-set indices in ascending order,
resolving and grouping each.  The second component records the external
calls made. -/
def lookup_oss_by_ost_rangeset (env : TopoEnv) (rangeset : List Nat) :
    Except PyExc (List (String × List Nat)) × List TopoEvent :=
  match env.connMapRun with
  | .error e => (.error e, [.connMapFetch])
  | .ok connMap =>
    let r := lookupLoop env.resolve connMap rangeset []
    (r.1, .connMapFetch :: r.2)

/-- Environment for the C1 failing input: the file is single-striped at
index 5, the caller passes source 5 and target 7, and the lfs migrate
subprocess exits nonzero with empty captured stderr. -/
def envC1 : MigrateEnv :=
  ⟨.ok ⟨"file.tmp", 1, 5⟩, .error (.calledProcessError (some "")), .ok ⟨"file.tmp", 1, 5⟩,
   ⟨"0:00:01"⟩⟩

/-- Environment for the C2 failing input: the file is single-striped at
index 7; the caller omits the source index and requests target 3. -/
def envC2 : MigrateEnv :=
  ⟨.ok ⟨"file.tmp", 1, 7⟩, .ok (), .ok ⟨"file.tmp", 1, 3⟩, ⟨"0:00:01"⟩⟩

/-- Environment for the C3 above-maximum failing input: single-striped
file at index 5, relocation succeeds, post-migration query reports the
requested (out-of-range) index. -/
def envC3 : MigrateEnv :=
  ⟨.ok ⟨"f.tmp", 1, 5⟩, .ok (), .ok ⟨"f.tmp", 1, 70000⟩, ⟨"0:00:01"⟩⟩

/-- Environment for the C3 below-minimum input: single-striped file at
index 5. -/
def envC3b : MigrateEnv :=
  ⟨.ok ⟨"f.tmp", 1, 5⟩, .ok (), .ok ⟨"f.tmp", 1, 5⟩, ⟨"0:00:01"⟩⟩

/-- Environment for the C7 witness: two-striped file at index 5. -/
def envC7 : MigrateEnv :=
  ⟨.ok ⟨"w.tmp", 2, 5⟩, .ok (), .ok ⟨"w.tmp", 2, 5⟩, ⟨"0:00:02"⟩⟩

/-- Environment for the C8 witness: single-striped file at index 5;
relocation to requested target 3 succeeds but the post-migration query
reports index 4. -/
def envC8 : MigrateEnv :=
  ⟨.ok ⟨"m.tmp", 1, 5⟩, .ok (), .ok ⟨"m.tmp", 1, 4⟩, ⟨"0:01:13"⟩⟩

/-- Environment for the C9 witness: three indices, two distinct
addresses, so the grouping splits the range across two hostnames. -/
def envC9 : TopoEnv :=
  ⟨.ok [(0, "1.1.1.1"), (1, "2.2.2.2"), (2, "1.1.1.1")], fun a => "host-" ++ a⟩

/-- Sample lctl get_param output for the C10 witness. -/
def outC10 : String :=
  "osc.lustre-OST001c-osc-ffff9bb2e33e9000.ost_conn_uuid=10.20.2.63@o2ib"

theorem hexVal_hexDigitChar (d : Nat) (hd : d < 16) : hexVal (hexDigitChar d) = d := by
  interval_cases d <;> decide

theorem natToHexCharsFuel_eq_small (f n : Nat) (h : n < 16) :
    natToHexCharsFuel (f + 1) n = [hexDigitChar n] := by
  simp [natToHexCharsFuel, h]

theorem natToHexCharsFuel_eq_large (f n : Nat) (h : ¬ n < 16) :
    natToHexCharsFuel (f + 1) n
      = natToHexCharsFuel f (n / 16) ++ [hexDigitChar (n % 16)] := by
  simp [natToHexCharsFuel, h]

theorem hexFold_natToHexCharsFuel (n : Nat) :
    ∀ fuel acc : Nat, n < fuel →
      List.foldl hexStep acc (natToHexCharsFuel fuel n)
        = acc * 16 ^ (natToHexCharsFuel fuel n).length + n := by
  induction n using Nat.strong_induction_on with
  | _ n ih =>
    intro fuel acc hfuel
    match fuel with
    | 0 => omega
    | f + 1 =>
      by_cases h16 : n < 16
      · rw [natToHexCharsFuel_eq_small f n h16]
        simp [hexStep, hexVal_hexDigitChar n h16]
      · have hdiv : n / 16 < n := Nat.div_lt_self (by omega) (by omega)
        have hdivf : n / 16 < f := by omega
        rw [natToHexCharsFuel_eq_large f n h16, List.foldl_append,
          ih (n / 16) hdiv f acc hdivf]
        simp only [List.foldl_cons, List.foldl_nil, hexStep,
          hexVal_hexDigitChar (n % 16) (Nat.mod_lt n (by omega)),
          List.length_append, List.length_cons, List.length_nil]
        have hdm : 16 * (n / 16) + n % 16 = n := Nat.div_add_mod n 16
        have hpow : (16 : Nat) ^ ((natToHexCharsFuel f (n / 16)).length + (0 + 1))
            = 16 ^ (natToHexCharsFuel f (n / 16)).length * 16 := by
          rw [← pow_succ]
        rw [hpow]
        nlinarith [hdm]

theorem natToHexCharsFuel_length_le (n : Nat) :
    ∀ fuel k : Nat, n < fuel → 1 ≤ k → n < 16 ^ k →
      (natToHexCharsFuel fuel n).length ≤ k := by
  induction n using Nat.strong_induction_on with
  | _ n ih =>
    intro fuel k hfuel hk hnk
    match fuel with
    | 0 => omega
    | f + 1 =>
      by_cases h16 : n < 16
      · rw [natToHexCharsFuel_eq_small f n h16]
        simpa using hk
      · have hdiv : n / 16 < n := Nat.div_lt_self (by omega) (by omega)
        have hdivf : n / 16 < f := by omega
        have hk2 : 2 ≤ k := by
          rcases Nat.lt_or_ge k 2 with h | h
          · exfalso
            have hk1 : k = 1 := by omega
            rw [hk1, pow_one] at hnk
            omega
          · exact h
        have hdk : n / 16 < 16 ^ (k - 1) := by
          have hp : (16 : Nat) ^ (k - 1) * 16 = 16 ^ k := by
            rw [← pow_succ]
            congr 1
            omega
          exact Nat.div_lt_of_lt_mul (by omega)
        have hrec := ih (n / 16) hdiv f (k - 1) hdivf (by omega) hdk
        rw [natToHexCharsFuel_eq_large f n h16]
        simp only [List.length_append, List.length_cons, List.length_nil]
        omega

theorem hexFold_replicate_zero (k : Nat) :
    List.foldl hexStep 0 (List.replicate k '0') = 0 := by
  induction k with
  | zero => rfl
  | succ k ih =>
    rw [List.replicate_succ, List.foldl_cons]
    have h0 : hexStep 0 '0' = 0 := by decide
    rw [h0]
    exact ih

theorem hexListVal_zfill_toHex (n : Nat) :
    hexListVal (zfill 4 (natToHexChars n)) = n := by
  unfold hexListVal zfill natToHexChars
  rw [List.foldl_append, hexFold_replicate_zero,
    hexFold_natToHexCharsFuel n (n + 1) 0 (by omega)]
  simp

theorem zfill_natToHexChars_length (n : Nat) (h : n < 65536) :
    (zfill 4 (natToHexChars n)).length = 4 := by
  have h4 : n < 16 ^ 4 := by
    have hp : (16 : Nat) ^ 4 = 65536 := by norm_num
    omega
  have hle : (natToHexChars n).length ≤ 4 :=
    natToHexCharsFuel_length_le n (n + 1) 4 (by omega) (by omega) h4
  unfold zfill
  simp only [List.length_append, List.length_replicate]
  omega

/-- C5: for every index i in [0, 65535], to_ost_hex accepts i and
produces a 4-character hex string whose int(s, 16) decoding recovers i,
and to_ost_hex rejects every input outside [0, 65535] with an
LfsUtilsError. -/
theorem C5_hex_codec_roundtrip (i : Int) :
    (0 ≤ i → i ≤ 65535 →
      ∃ s : String, to_ost_hex i = .ok s ∧ s.length = 4 ∧ (int_base16 s : Int) = i) ∧
    ((i < 0 ∨ 65535 < i) →
      ∃ m, to_ost_hex i = .error (.lfsUtilsError m)) := by
  constructor
  · intro h0 h1
    refine ⟨String.mk (zfill 4 (natToHexChars i.toNat)), ?_, ?_, ?_⟩
    · unfold to_ost_hex
      rw [if_neg]
      unfold MIN_OST_INDEX MAX_OST_INDEX
      omega
    · show (zfill 4 (natToHexChars i.toNat)).length = 4
      exact zfill_natToHexChars_length i.toNat (by omega)
    · show ((hexListVal (zfill 4 (natToHexChars i.toNat)) : Nat) : Int) = i
      rw [hexListVal_zfill_toHex]
      exact Int.toNat_of_nonneg h0
  · intro h
    refine ⟨"OST index " ++ toString i ++ " invalid. Must be in range between 0 and 65535.", ?_⟩
    unfold to_ost_hex
    rw [if_pos]
    unfold MIN_OST_INDEX MAX_OST_INDEX
    omega

theorem C5_hex_codec_roundtrip_witness :
    (∃ s : String, to_ost_hex 28 = .ok s ∧ s.length = 4 ∧ (int_base16 s : Int) = 28) ∧
    (∃ m, to_ost_hex 70000 = .error (.lfsUtilsError m)) :=
  ⟨(C5_hex_codec_roundtrip 28).1 (by norm_num) (by norm_num),
   (C5_hex_codec_roundtrip 70000).2 (Or.inr (by norm_num))⟩

/-- C6: expanding the hex range specification with single tokens and one
hex-hex interval yields exactly the ascending deduplicated decimal set
containing 0, 255, 56611 and the interval 65280 to 65296. -/
theorem C6_expand_hex_range :
    create_rangeset_from_hex "0000, 00FF, ff00-FF10, dd23" =
      .ok [0, 255, 56611, 65280, 65281, 65282, 65283, 65284, 65285, 65286, 65287,
           65288, 65289, 65290, 65291, 65292, 65293, 65294, 65295, 65296] := by
  rfl

/-- C1: evaluation of the code at the failing input.  The relocation
tool is invoked and fails with empty error text; instead of returning a
FAILED MigrateResult, migrate_file lets the LfsUtilsError raised by the
MigrateResult constructor escape to the caller, contradicting the
guarantee that every call past the type validation returns exactly one
MigrateResult. -/
theorem C1_empty_stderr_escapes :
    (migrate_file "/usr/bin/lfs" envC1 "file.tmp" (some 5) (some 7) false false true).result
      = .error (.lfsUtilsError "State FAILED requires error_msg to be set.") ∧
    (migrate_file "/usr/bin/lfs" envC1 "file.tmp" (some 5) (some 7) false false true).relocArgs
      = some ["/usr/bin/lfs", "migrate", "--non-direct", "--non-block", "-i", "7", "-c", "1",
              "file.tmp"] :=
  ⟨rfl, rfl⟩

/-- C2: evaluation of the code at the failing input.  With source_idx
omitted, the ladder comparison source_idx != pre_ost_idx is a Python
None-versus-int comparison, which is true, so the source-index rule
fires and the call returns IGNORED without ever reaching the
target-index rule or the relocation - contradicting the claim that the
rule does not fire when sourceIndex is omitted. -/
theorem C2_omitted_source_yields_ignored :
    (migrate_file "/usr/bin/lfs" envC2 "file.tmp" none (some 3) false false true).result
      = .ok "IGNORED|file.tmp" ∧
    (migrate_file "/usr/bin/lfs" envC2 "file.tmp" none (some 3) false false true).relocArgs
      = none :=
  ⟨rfl, rfl⟩

/-- C3: evaluation of the code at both range boundaries.  A target
index of 70000 (above MAX_OST_INDEX) is not rejected - the upper-bound
comparison reads source_idx instead of target_idx - and the relocation
command is invoked with -i 70000; only the below-minimum side is
rejected (with an uncaught ValueError) before any invocation. -/
theorem C3_overmax_target_reaches_relocation :
    (migrate_file "/usr/bin/lfs" envC3 "f.tmp" (some 5) (some 70000) false false true).relocArgs
      = some ["/usr/bin/lfs", "migrate", "--non-direct", "--non-block", "-i", "70000", "-c",
              "1", "f.tmp"] ∧
    (migrate_file "/usr/bin/lfs" envC3 "f.tmp" (some 5) (some 70000) false false true).result
      = .ok "SUCCESS|f.tmp|0:00:01|5|70000" ∧
    (migrate_file "/usr/bin/lfs" envC3b "f.tmp" (some 5) (some (-1)) false false true).result
      = .error (.valueError "target_idx is less than LfsUtils.MIN_OST_INDEX (0)") ∧
    (migrate_file "/usr/bin/lfs" envC3b "f.tmp" (some 5) (some (-1)) false false true).relocArgs
      = none :=
  ⟨rfl, rfl, rfl, rfl⟩

/-- C4: MigrateResult construction invariants.  A FAILED result without
a non-empty error message is rejected with an LfsUtilsError; any state
with an empty filename is rejected; any state with a missing elapsed
value is rejected; and the formatted string of every successfully
constructed non-FAILED result is independent of the error-message
argument, hence contains no error-message field value. -/
theorem C4_migrate_result_invariants :
    (∀ (f : String) (td : Option Timedelta) (s g : Option Int) (em : Option String),
      em = none ∨ em = some "" →
      ∃ msg, MigrateResult_init (some .FAILED) f td s g em = .error (.lfsUtilsError msg)) ∧
    (∀ (st : Option MigrateState) (td : Option Timedelta) (s g : Option Int)
      (em : Option String),
      ∃ msg, MigrateResult_init st "" td s g em = .error (.lfsUtilsError msg)) ∧
    (∀ (st : Option MigrateState) (f : String) (s g : Option Int) (em : Option String),
      ∃ msg, MigrateResult_init st f none s g em = .error (.lfsUtilsError msg)) ∧
    (∀ (st : Option MigrateState) (f : String) (td : Option Timedelta) (s g : Option Int)
      (e1 e2 : Option String), st ≠ some .FAILED →
      MigrateResult_init st f td s g e1 = MigrateResult_init st f td s g e2) := by
  refine ⟨?_, ?_, ?_, ?_⟩
  · intro f td s g em hem
    unfold MigrateResult_init
    by_cases hf : f = ""
    · exact ⟨"Filename must be set and type of str", by rw [if_pos hf]⟩
    · rw [if_neg hf]
      match td with
      | none => exact ⟨"Time elapsed must be type of datetime.timedelta", rfl⟩
      | some t =>
        rcases hem with h | h
        · subst h
          exact ⟨"State FAILED requires error_msg to be set.", rfl⟩
        · subst h
          exact ⟨"State FAILED requires error_msg to be set.", rfl⟩
  · intro st td s g em
    exact ⟨"Filename must be set and type of str", by unfold MigrateResult_init; rw [if_pos rfl]⟩
  · intro st f s g em
    unfold MigrateResult_init
    by_cases hf : f = ""
    · exact ⟨"Filename must be set and type of str", by rw [if_pos hf]⟩
    · exact ⟨"Time elapsed must be type of datetime.timedelta", by rw [if_neg hf]⟩
  · intro st f td s g e1 e2 hst
    unfold MigrateResult_init
    by_cases hf : f = ""
    · rw [if_pos hf, if_pos hf]
    · rw [if_neg hf, if_neg hf]
      match td with
      | none => rfl
      | some t =>
        match st with
        | none => rfl
        | some .DISPLACED => rfl
        | some .IGNORED => rfl
        | some .SKIPPED => rfl
        | some .SUCCESS => rfl
        | some .FAILED => exact absurd rfl hst

theorem C4_migrate_result_invariants_witness :
    (∃ msg, MigrateResult_init (some .FAILED) "test.tmp" (some ⟨"0:01:13"⟩) none none none
      = .error (.lfsUtilsError msg)) ∧
    MigrateResult_init (some .SUCCESS) "test.tmp" (some ⟨"0:01:13"⟩) (some 4) (some 67)
        (some "boom")
      = MigrateResult_init (some .SUCCESS) "test.tmp" (some ⟨"0:01:13"⟩) (some 4) (some 67)
        none :=
  ⟨C4_migrate_result_invariants.1 "test.tmp" (some ⟨"0:01:13"⟩) none none none (Or.inl rfl),
   C4_migrate_result_invariants.2.2.2 (some .SUCCESS) "test.tmp" (some ⟨"0:01:13"⟩) (some 4)
     (some 67) (some "boom") none (by decide)⟩

/-- C7: with skip set, a file whose stripe count exceeds 1 yields
SKIPPED and the relocation command is never invoked; the rule fires for
every source and target argument, i.e. before the source-index and
target-index rules are consulted. -/
theorem C7_skip_multistriped (lfs : String) (env : MigrateEnv) (filename : String)
    (source_idx target_idx : Option Int) (direct_io block : Bool) (pre : StripeInfo)
    (hf : filename ≠ "")
    (hpre : env.preStripe = .ok pre)
    (hcount : 1 < pre.count) :
    (migrate_file lfs env filename source_idx target_idx direct_io block true).result
      = .ok ("SKIPPED|" ++ filename) ∧
    (migrate_file lfs env filename source_idx target_idx direct_io block true).relocArgs
      = none := by
  have hb : migrate_body lfs env filename source_idx target_idx direct_io block true
      = ⟨.normal .SKIPPED (some pre.index) none, none, false⟩ := by
    simp only [migrate_body, hpre]
    rw [if_pos ⟨trivial, hcount⟩]
  constructor
  · show (migrate_file lfs env filename source_idx target_idx direct_io block true).result = _
    unfold migrate_file
    rw [hb]
    show MigrateResult_init (some .SKIPPED) filename (some env.elapsed) (some pre.index)
      none none = _
    unfold MigrateResult_init
    rw [if_neg hf]
  · unfold migrate_file
    rw [hb]

theorem C7_skip_multistriped_witness :
    (migrate_file "/usr/bin/lfs" envC7 "w.tmp" (some 9) (some 3) false false true).result
      = .ok "SKIPPED|w.tmp" ∧
    (migrate_file "/usr/bin/lfs" envC7 "w.tmp" (some 9) (some 3) false false true).relocArgs
      = none :=
  C7_skip_multistriped "/usr/bin/lfs" envC7 "w.tmp" (some 9) (some 3) false false
    ⟨"w.tmp", 2, 5⟩ (by decide) rfl (by decide)

/-- C8: whenever the relocation subprocess succeeds, the stripe info is
re-queried; if a target index was given and the post-migration index
differs from it the result is DISPLACED, otherwise (equal post index or
no target given) the result is SUCCESS. -/
theorem C8_post_migration_classification (lfs : String) (env : MigrateEnv) (filename : String)
    (source_idx target_idx : Option Int) (direct_io block skip : Bool) (pre post : StripeInfo)
    (hf : filename ≠ "")
    (hpre : env.preStripe = .ok pre)
    (hskip : ¬(skip = true ∧ 1 < pre.count))
    (hsrc : source_idx = some pre.index)
    (htgt : target_idx ≠ some pre.index)
    (hrange : ∀ t, target_idx = some t → 0 ≤ t ∧ pre.index ≤ 65535)
    (hrun : env.migrateRun = .ok ())
    (hpost : env.postStripe = .ok post) :
    (migrate_file lfs env filename source_idx target_idx direct_io block skip).postQueried
      = true ∧
    (∀ t, target_idx = some t → t ≠ post.index →
      (migrate_file lfs env filename source_idx target_idx direct_io block skip).result
        = .ok ("DISPLACED|" ++ filename ++ "|" ++ env.elapsed.fmt ++ "|" ++
            toString pre.index ++ "|" ++ toString post.index)) ∧
    ((target_idx = none ∨ target_idx = some post.index) →
      (migrate_file lfs env filename source_idx target_idx direct_io block skip).result
        = .ok ("SUCCESS|" ++ filename ++ "|" ++ env.elapsed.fmt ++ "|" ++
            toString pre.index ++ "|" ++ toString post.index)) := by
  subst hsrc
  have hrc : rangeCheck (some pre.index) target_idx = none := by
    match target_idx with
    | none => rfl
    | some t =>
      obtain ⟨ht0, hsle⟩ := hrange t rfl
      simp only [rangeCheck, MIN_OST_INDEX, MAX_OST_INDEX]
      rw [if_neg (by omega), if_neg (by omega)]
  have hb : migrate_body lfs env filename (some pre.index) target_idx direct_io block skip
      = ⟨.normal (match target_idx with
                  | some t => if t ≠ post.index then .DISPLACED else .SUCCESS
                  | none => .SUCCESS) (some pre.index) (some post.index),
         some (build_args lfs direct_io block target_idx pre.count filename), true⟩ := by
    simp only [migrate_body, hpre]
    rw [if_neg hskip, if_neg (by simp), if_neg htgt, hrc, hrun, hpost]
    match target_idx with
    | none => rfl
    | some t =>
      by_cases hd : t = post.index
      · subst hd
        simp
      · simp [hd]
  refine ⟨?_, ?_, ?_⟩
  · unfold migrate_file
    rw [hb]
  · intro t ht hne
    subst ht
    unfold migrate_file
    rw [hb]
    show MigrateResult_init
      (some (if t ≠ post.index then MigrateState.DISPLACED else MigrateState.SUCCESS))
      filename (some env.elapsed) (some pre.index) (some post.index) none = _
    rw [if_pos hne]
    unfold MigrateResult_init
    rw [if_neg hf]
    rfl
  · intro hcase
    rcases hcase with h | h
    · subst h
      unfold migrate_file
      rw [hb]
      show MigrateResult_init (some .SUCCESS) filename (some env.elapsed) (some pre.index)
        (some post.index) none = _
      unfold MigrateResult_init
      rw [if_neg hf]
      rfl
    · subst h
      unfold migrate_file
      rw [hb]
      show MigrateResult_init
        (some (if post.index ≠ post.index then MigrateState.DISPLACED else MigrateState.SUCCESS))
        filename (some env.elapsed) (some pre.index) (some post.index) none = _
      rw [if_neg (by simp)]
      unfold MigrateResult_init
      rw [if_neg hf]
      rfl

theorem C8_post_migration_classification_witness :
    (migrate_file "/usr/bin/lfs" envC8 "m.tmp" (some 5) (some 3) false false true).postQueried
      = true ∧
    (migrate_file "/usr/bin/lfs" envC8 "m.tmp" (some 5) (some 3) false false true).result
      = .ok "DISPLACED|m.tmp|0:01:13|5|4" := by
  have h := C8_post_migration_classification "/usr/bin/lfs" envC8 "m.tmp" (some 5) (some 3)
    false false true ⟨"m.tmp", 1, 5⟩ ⟨"m.tmp", 1, 4⟩ (by decide) rfl (by decide) rfl
    (by decide)
    (fun t ht => by
      injection ht with ht2
      subst ht2
      exact ⟨by decide, by decide⟩)
    rfl rfl
  exact ⟨h.1, h.2.1 3 rfl (by decide)⟩

theorem groupVals_addToGroup (g : List (String × List Nat)) (oss : String) (ost : Nat) :
    (groupVals (addToGroup g oss ost)).Perm (groupVals g ++ [ost]) := by
  induction g with
  | nil => simp [addToGroup, groupVals]
  | cons p rest ih =>
    obtain ⟨k, xs⟩ := p
    by_cases hk : k = oss
    · subst hk
      simp only [addToGroup, if_pos rfl, if_true, groupVals, List.map_cons, List.flatten_cons,
        List.append_assoc]
      exact List.Perm.append_left xs List.perm_append_comm
    · simp only [addToGroup, if_neg hk, groupVals, List.map_cons, List.flatten_cons,
        List.append_assoc]
      exact List.Perm.append_left xs ih

theorem lookupLoop_spec (resolve : String → String) (connMap : List (Nat × String)) :
    ∀ (rs : List Nat) (acc : List (String × List Nat)),
      (∀ i ∈ rs, (dictGet connMap i).isSome = true) →
      ∃ g evs, lookupLoop resolve connMap rs acc = (.ok g, evs) ∧
        (groupVals g).Perm (groupVals acc ++ rs) ∧
        ∀ e ∈ evs, e ≠ TopoEvent.connMapFetch := by
  intro rs
  induction rs with
  | nil =>
    intro acc h
    exact ⟨acc, [], rfl, by simp, by simp⟩
  | cons ost rest ih =>
    intro acc h
    have hmem : (dictGet connMap ost).isSome = true := h ost (by simp)
    obtain ⟨addr, haddr⟩ := Option.isSome_iff_exists.mp hmem
    obtain ⟨g, evs, heq, hperm, hevs⟩ :=
      ih (addToGroup acc (resolve addr) ost) (fun i hi => h i (by simp [hi]))
    refine ⟨g, .hostnameResolve addr :: evs, ?_, ?_, ?_⟩
    · simp only [lookupLoop, haddr, heq]
    · refine hperm.trans ?_
      have hstep := groupVals_addToGroup acc (resolve addr) ost
      have h1 : (groupVals (addToGroup acc (resolve addr) ost) ++ rest).Perm
          ((groupVals acc ++ [ost]) ++ rest) := List.Perm.append_right rest hstep
      refine h1.trans ?_
      simp
    · intro e he
      rcases List.mem_cons.mp he with h1 | h1
      · subst h1
        intro hcontr
        cases hcontr
      · exact hevs e h1

/-- C9: for a range set all of whose indices are keys of the fetched
bulk connection map (with address-to-hostname resolution behaving as a
function), lookup_oss_by_ost_rangeset succeeds with a grouping whose
index lists, taken together, are a permutation of the input range -
each index exactly once and nothing else - and the bulk connection map
is fetched exactly once. -/
theorem C9_bulk_lookup_partition (env : TopoEnv) (rangeset : List Nat)
    (connMap : List (Nat × String))
    (hm : env.connMapRun = .ok connMap)
    (hall : ∀ i ∈ rangeset, (dictGet connMap i).isSome = true) :
    ∃ g evs, lookup_oss_by_ost_rangeset env rangeset = (.ok g, evs) ∧
      (groupVals g).Perm rangeset ∧
      List.count TopoEvent.connMapFetch evs = 1 := by
  obtain ⟨g, evs, heq, hperm, hevs⟩ := lookupLoop_spec env.resolve connMap rangeset [] hall
  refine ⟨g, .connMapFetch :: evs, ?_, ?_, ?_⟩
  · simp only [lookup_oss_by_ost_rangeset, hm, heq]
  · have h0 : groupVals ([] : List (String × List Nat)) ++ rangeset = rangeset := by
      simp [groupVals]
    rw [h0] at hperm
    exact hperm
  · have hz : List.count TopoEvent.connMapFetch evs = 0 :=
      List.count_eq_zero.mpr (fun hmem => hevs _ hmem rfl)
    simp [List.count_cons, hz]

theorem C9_bulk_lookup_partition_witness :
    ∃ g evs, lookup_oss_by_ost_rangeset envC9 [0, 1, 2] = (.ok g, evs) ∧
      (groupVals g).Perm [0, 1, 2] ∧
      List.count TopoEvent.connMapFetch evs = 1 :=
  C9_bulk_lookup_partition envC9 [0, 1, 2] [(0, "1.1.1.1"), (1, "2.2.2.2"), (2, "1.1.1.1")]
    rfl (by decide)

theorem hexVal_lt_16 (c : Char) (h : isHexDigitChar c = true) : hexVal c < 16 := by
  simp only [isHexDigitChar, Bool.or_eq_true, Bool.and_eq_true, decide_eq_true_eq] at h
  unfold hexVal
  split_ifs <;> omega

theorem hexFold_lt (l : List Char) :
    ∀ acc : Nat, (∀ c ∈ l, isHexDigitChar c = true) →
      List.foldl hexStep acc l < (acc + 1) * 16 ^ l.length := by
  induction l with
  | nil =>
    intro acc h
    simp
  | cons c rest ih =>
    intro acc h
    have hc : hexVal c < 16 := hexVal_lt_16 c (h c (by simp))
    have hrec := ih (hexStep acc c) (fun x hx => h x (by simp [hx]))
    have hstep : (hexStep acc c + 1) * 16 ^ rest.length ≤ (acc + 1) * 16 ^ (rest.length + 1) := by
      have h1 : hexStep acc c + 1 ≤ (acc + 1) * 16 := by
        unfold hexStep
        omega
      calc (hexStep acc c + 1) * 16 ^ rest.length
          ≤ (acc + 1) * 16 * 16 ^ rest.length := Nat.mul_le_mul_right _ h1
        _ = (acc + 1) * 16 ^ (rest.length + 1) := by
            rw [pow_succ]
            ring
    simp only [List.foldl_cons, List.length_cons]
    omega

theorem hexListVal_lt_65536 (l : List Char) (hlen : l.length = 4)
    (hhex : ∀ c ∈ l, isHexDigitChar c = true) : hexListVal l < 65536 := by
  have := hexFold_lt l 0 hhex
  rw [hlen] at this
  simpa using this

theorem matchTailAt_hex (l h4 : List Char) (addr : String)
    (h : matchTailAt l = some (h4, addr)) :
    h4.length = 4 ∧ ∀ c ∈ h4, isHexDigitChar c = true := by
  unfold matchTailAt at h
  rcases h1 : dropPrefixChars ("-OST".data) l with _ | r1
  · rw [h1] at h
    exact absurd h (by simp)
  · rw [h1] at h
    simp only [] at h
    rcases r1 with _ | ⟨a, _ | ⟨b, _ | ⟨c, _ | ⟨d, r2⟩⟩⟩⟩
    · exact absurd h (by simp)
    · exact absurd h (by simp)
    · exact absurd h (by simp)
    · exact absurd h (by simp)
    · simp only [] at h
      by_cases hall : [a, b, c, d].all isHexDigitChar = true
      · rw [if_pos hall] at h
        rcases h2 : dropPrefixChars ("-osc-".data) r2 with _ | r3
        · rw [h2] at h
          exact absurd h (by simp)
        · rw [h2] at h
          simp only [] at h
          rcases h3 : dropHexN 16 r3 with _ | r4
          · rw [h3] at h
            exact absurd h (by simp)
          · rw [h3] at h
            simp only [] at h
            rcases h5 : dropPrefixChars (".ost_conn_uuid=".data) r4 with _ | r5
            · rw [h5] at h
              exact absurd h (by simp)
            · rw [h5] at h
              simp only [] at h
              by_cases hc : r5.takeWhile isAddrChar ≠ [] ∧
                  (r5.dropWhile isAddrChar).head? = some '@'
              · rw [if_pos hc] at h
                injection h with h6
                injection h6 with h7 h8
                subst h7
                refine ⟨rfl, ?_⟩
                simp only [List.all_eq_true] at hall
                exact hall
              · rw [if_neg hc] at h
                exact absurd h (by simp)
      · rw [if_neg hall] at h
        exact absurd h (by simp)

theorem findTail_hex (l : List Char) :
    ∀ (h4 : List Char) (addr : String), findTail l = some (h4, addr) →
      h4.length = 4 ∧ ∀ c ∈ h4, isHexDigitChar c = true := by
  induction l with
  | nil =>
    intro h4 addr h
    exact absurd h (by simp [findTail])
  | cons c rest ih =>
    intro h4 addr h
    unfold findTail at h
    rcases h1 : findTail rest with _ | r
    · rw [h1] at h
      simp only [] at h
      exact matchTailAt_hex _ _ _ h
    · rw [h1] at h
      simp only [Option.some.injEq] at h
      subst h
      exact ih h4 addr h1

theorem searchConnUuid_hex (l : List Char) :
    ∀ (h4 : List Char) (addr : String), searchConnUuid l = some (h4, addr) →
      h4.length = 4 ∧ ∀ c ∈ h4, isHexDigitChar c = true := by
  induction l with
  | nil =>
    intro h4 addr h
    exact absurd h (by simp [searchConnUuid])
  | cons c rest ih =>
    intro h4 addr h
    unfold searchConnUuid at h
    rcases h1 : dropPrefixChars ("osc.".data) (c :: rest) with _ | after
    · rw [h1] at h
      simp only [] at h
      exact ih h4 addr h
    · rw [h1] at h
      simp only [] at h
      rcases h2 : findTail after with _ | r
      · rw [h2] at h
        simp only [] at h
        exact ih h4 addr h
      · rw [h2] at h
        simp only [Option.some.injEq] at h
        subst h
        exact findTail_hex after h4 addr h2

theorem dictInsert_mem (m : List (Nat × String)) (k : Nat) (v : String) (p : Nat × String)
    (h : p ∈ dictInsert m k v) : p = (k, v) ∨ p ∈ m := by
  induction m with
  | nil =>
    simp only [dictInsert] at h
    rcases List.mem_singleton.mp h with h1
    exact Or.inl h1
  | cons q rest ih =>
    obtain ⟨k0, v0⟩ := q
    unfold dictInsert at h
    by_cases hk : k0 = k
    · rw [if_pos hk] at h
      rcases List.mem_cons.mp h with h1 | h1
      · exact Or.inl h1
      · exact Or.inr (List.mem_cons.mpr (Or.inr h1))
    · rw [if_neg hk] at h
      rcases List.mem_cons.mp h with h1 | h1
      · exact Or.inr (List.mem_cons.mpr (Or.inl h1))
      · rcases ih h1 with h2 | h2
        · exact Or.inl h2
        · exact Or.inr (List.mem_cons.mpr (Or.inr h2))

theorem connUuidLines_keys (fs : String) :
    ∀ (lines : List (List Char)) (acc m : List (Nat × String)),
      (∀ p ∈ acc, p.1 < 65536) →
      connUuidLines fs lines acc = .ok m →
      ∀ p ∈ m, p.1 < 65536 := by
  intro lines
  induction lines with
  | nil =>
    intro acc m hacc h
    simp only [connUuidLines, Except.ok.injEq] at h
    subst h
    exact hacc
  | cons line rest ih =>
    intro acc m hacc h
    unfold connUuidLines at h
    by_cases hblank : trimChars line = []
    · rw [if_pos hblank] at h
      exact ih acc m hacc h
    · rw [if_neg hblank] at h
      rcases h1 : searchConnUuid line with _ | r
      · rw [h1] at h
        exact absurd h (by simp)
      · rw [h1] at h
        simp only [] at h
        obtain ⟨h4, addr⟩ := r
        refine ih (dictInsert acc (hexListVal h4) addr) m ?_ h
        intro p hp
        rcases dictInsert_mem acc (hexListVal h4) addr p hp with h2 | h2
        · subst h2
          obtain ⟨hlen, hhex⟩ := searchConnUuid_hex line h4 addr h1
          exact hexListVal_lt_65536 h4 hlen hhex
        · exact hacc p h2

/-- C10: every key of the dictionary returned by a successful
ost_conn_uuid_map call is below 65536 - each key is decoded by
int(group, 16) from the exactly-four-hex-digit group captured by the
connection-identifier pattern - and the returned dictionary is
non-empty. -/
theorem C10_conn_map_keys_bounded (fs_name : String) (output : Except PyExc String)
    (m : List (Nat × String))
    (h : ost_conn_uuid_map fs_name output = .ok m) :
    (∀ p ∈ m, p.1 < 65536) ∧ m ≠ [] := by
  unfold ost_conn_uuid_map at h
  by_cases hfs : fs_name = ""
  · rw [if_pos hfs] at h
    exact absurd h (by simp)
  · rw [if_neg hfs] at h
    rcases output with e | out
    · exact absurd h (by simp)
    · simp only [] at h
      rcases h1 : connUuidLines fs_name (splitOnChar '\n' out.data) [] with e | m0
      · rw [h1] at h
        exact absurd h (by simp)
      · rw [h1] at h
        simp only [] at h
        by_cases hm0 : m0 = []
        · rw [if_pos hm0] at h
          exact absurd h (by simp)
        · rw [if_neg hm0] at h
          simp only [Except.ok.injEq] at h
          subst h
          exact ⟨connUuidLines_keys fs_name (splitOnChar '\n' out.data) [] m0
            (by simp) h1, hm0⟩

theorem C10_conn_map_keys_bounded_witness :
    (∀ p ∈ [((28 : Nat), "10.20.2.63")], p.1 < 65536) ∧
    ([((28 : Nat), "10.20.2.63")] : List (Nat × String)) ≠ [] :=
  C10_conn_map_keys_bounded "lustre" (.ok outC10) [(28, "10.20.2.63")] (by rfl)
